import Mathlib

/-!
Shallow embedding of `datasets/convert_images_tfrecords.py` (Tumblr emotions
repository): conversion of a directory tree of labeled JPEG images into
sharded TFRecord files plus a label map.

Modelling conventions:
* Paths are strings; `os.path.join` on plain relative components is modelled
  as interposing a single `/` (the only joins the script performs).
* The filesystem probed by `tf.gfile.Exists` is a list of existing paths.
* The directory listing of the photos root (`os.listdir`) is a list of
  entries, each with its name, a directory flag, and — when it is a class
  directory — its own listing.
* A decoded image tensor is reduced to its shape (list of dimension sizes),
  which is all the script inspects (`image.shape`).  An `assert` failure or
  a `KeyError` is modelled as `none` / a `false` success flag that aborts
  the remaining work, mirroring Python exception propagation.
* Python's global Mersenne-Twister PRNG is abstracted as a deterministic
  stream `rng : Nat → Nat → Nat` (seed, then draw bound) feeding the exact
  Fisher–Yates loop of `random.shuffle`; every theorem below is proved for
  an arbitrary stream, so the concrete generator is an instance.
* `sorted` on Python strings (lexicographic on code points) is modelled by
  insertion sort over code-point-lexicographic order on `String.data`.
-/

namespace TumblrConvert

/-- Module constant `_NUM_VALIDATION = 50` (line 37). -/
def _NUM_VALIDATION : Nat := 50

/-- Module constant `_RANDOM_SEED = 0` (line 40): seed for repeatability. -/
def _RANDOM_SEED : Nat := 0

/-- Module constant `_NUM_SHARDS = 5` (line 43): shards per dataset split. -/
def _NUM_SHARDS : Nat := 5

/-- `os.path.join a b` for plain relative components. -/
def joinPath (a b : String) : String := a ++ "/" ++ b

/-- Zero-padded five-wide decimal rendering, Python's `'%05d' % n`. -/
def pad5 (n : Nat) : String :=
  let s := toString n
  String.mk (List.replicate (5 - s.length) '0') ++ s

/-- Code-point-lexicographic comparison of character lists, the order Python
uses to compare strings. -/
def charListLe : List Char → List Char → Bool
  | [], _ => true
  | _ :: _, [] => false
  | a :: as, b :: bs =>
    if a.toNat < b.toNat then true
    else if b.toNat < a.toNat then false
    else charListLe as bs

/-- Python string `<=`. -/
def strLe (a b : String) : Bool := charListLe a.data b.data

/-- Python `sorted` on strings: a stable sort by `strLe` (insertion sort). -/
def pythonSorted (l : List String) : List String :=
  List.insertionSort (fun a b => strLe a b = true) l

/-- Split a character list at every occurrence of `c` (Python `s.split(c)`
semantics: n separators produce n+1 pieces). -/
def splitOnSlash : List Char → List (List Char)
  | [] => [[]]
  | a :: as =>
    let rest := splitOnSlash as
    if a = '/' then [] :: rest
    else
      match rest with
      | r :: rs => (a :: r) :: rs
      | [] => [[a]]

/-- `os.path.basename (os.path.dirname p)` for the slash-joined paths the
script builds: the second-to-last `/`-separated component. -/
def parentDirOf (p : String) : String :=
  String.mk (((splitOnSlash p.data).dropLast).getLastD [])

/-- The filesystem as seen by `tf.gfile`: the set of existing paths. -/
abbrev FileSet := List String

/-- `tf.gfile.Exists`. -/
def gfileExists (fs : FileSet) (p : String) : Bool := fs.contains p

/-- One entry of `os.listdir(root)` for the photos root, bundled with its own
listing when it is a class directory. -/
structure DirEntry where
  name : String
  isDir : Bool
  entries : List String
deriving DecidableEq

/-- `ImageReader.decode_jpeg` (lines 58-63): run the decode op, then
`assert len(image.shape) == 3` and `assert image.shape[2] == 3`.  The tensor
is reduced to its shape; a failed assertion is `none` (the exception aborts
the run). -/
def decode_jpeg (shape : List Nat) : Option (List Nat) :=
  if shape.length = 3 then
    if shape.getD 2 0 = 3 then some shape else none
  else none

/-- `ImageReader.read_image_dims` (lines 54-56): decode, then return
`image.shape[0], image.shape[1]`. -/
def read_image_dims (shape : List Nat) : Option (Nat × Nat) :=
  (decode_jpeg shape).map (fun image => (image.getD 0 0, image.getD 1 0))

/-- `_get_filenames_and_classes` (lines 66-95): the directory entries of
`dataset_dir/photos_subdir` that are directories give the class names; each
class directory's entries other than `.DS_Store` give the photo paths.
Returns `(photo_filenames, sorted class_names)`. -/
def _get_filenames_and_classes (dataset_dir photos_subdir : String)
    (rootListing : List DirEntry) : List String × List String :=
  let root := joinPath dataset_dir photos_subdir
  let dirs := rootListing.filter (fun e => e.isDir)
  let class_names := dirs.map (fun e => e.name)
  let photo_filenames :=
    (dirs.map (fun d =>
      (d.entries.filter (fun filename => filename ≠ ".DS_Store")).map
        (fun filename => joinPath (joinPath root d.name) filename))).flatten
  (photo_filenames, pythonSorted class_names)

/-- `_get_dataset_filename` (lines 98-101):
`os.path.join(dataset_dir, photos_subdir, 'tumblr_%s_%05d-of-%05d.tfrecord' %
(split_name, shard_id, _NUM_SHARDS))`. -/
def _get_dataset_filename (dataset_dir photos_subdir split_name : String)
    (shard_id : Nat) : String :=
  joinPath dataset_dir (joinPath photos_subdir
    ("tumblr_" ++ split_name ++ "_" ++ pad5 shard_id ++ "-of-" ++
      pad5 _NUM_SHARDS ++ ".tfrecord"))

/-- `_dataset_exists` (lines 166-173): every expected shard file for both
splits and all shard ids exists under `dataset_dir/photos_subdir`. -/
def _dataset_exists (fs : FileSet) (dataset_dir photos_subdir : String) : Bool :=
  (["train", "validation"]).all fun split_name =>
    (List.range _NUM_SHARDS).all fun shard_id =>
      gfileExists fs (_get_dataset_filename dataset_dir photos_subdir split_name shard_id)

/-- Modelled from the spec: `dataset_utils.image_to_tfexample` (not under
`src/`) packages {encoded image bytes, format tag "jpg", height, width,
class id} into one record.  The raw bytes are identified by the source
filename they were read from. -/
structure Record where
  image_data : String
  image_format : String
  height : Nat
  width : Nat
  class_id : Nat
deriving DecidableEq

/-- `dict(zip(class_names, range(len(class_names))))` (line 193), as the
association list a Python dict with distinct keys denotes. -/
def class_names_to_ids (class_names : List String) : List (String × Nat) :=
  class_names.zip (List.range class_names.length)

/-- `dict(zip(range(len(class_names)), class_names))` (line 208). -/
def labels_to_class_names (class_names : List String) : List (Nat × String) :=
  (List.range class_names.length).zip class_names

/-- Loop body of `_convert_dataset` for one image (lines 136-145): read the
file, probe dimensions (may fail the 3-channel assertion), look up the class
id of the parent directory name (may raise `KeyError`), and build the
record.  `img` maps a filename to the shape of its decoded tensor. -/
def convertImage (img : String → List Nat) (cids : List (String × Nat))
    (filename : String) : Option Record :=
  match read_image_dims (img filename) with
  | none => none
  | some (height, width) =>
    match cids.lookup (parentDirOf filename) with
    | none => none
    | some class_id => some ⟨filename, "jpg", height, width, class_id⟩

/-- The records written for one shard's slice, with the success flag: a
failing image aborts the slice, keeping the records written before it
(lines 132-145 with Python exception propagation). -/
def processSlice (img : String → List Nat) (cids : List (String × Nat)) :
    List String → List Record × Bool
  | [] => ([], true)
  | f :: rest =>
    match convertImage img cids f with
    | none => ([], false)
    | some r =>
      let (rs, ok) := processSlice img cids rest
      (r :: rs, ok)

/-- `num_per_shard = int(math.ceil(len(filenames) / float(_NUM_SHARDS)))`
(line 118); the float division is exact at every realistic size, so this is
ceiling division. -/
def num_per_shard (n : Nat) : Nat := (n + (_NUM_SHARDS - 1)) / _NUM_SHARDS

/-- The slice of shard `shard_id` (lines 130-132):
`filenames[start_ndx:end_ndx]` with `start_ndx = shard_id*num_per_shard` and
`end_ndx = min((shard_id+1)*num_per_shard, len(filenames))`. -/
def shardSlice (filenames : List String) (shard_id : Nat) : List String :=
  let k := num_per_shard filenames.length
  let start_ndx := shard_id * k
  let end_ndx := min ((shard_id + 1) * k) filenames.length
  (filenames.drop start_ndx).take (end_ndx - start_ndx)

/-- The shard loop of `_convert_dataset` (lines 125-145) over a list of
shard ids: each iteration opens (creates) the shard file, then writes its
slice's records; a failure ends the run after the current shard's partial
records, leaving later shard files unopened. -/
def runShards (img : String → List Nat) (cids : List (String × Nat))
    (dataset_dir tfrecords_subdir split_name : String)
    (filenames : List String) : List Nat → List (String × List Record) × Bool
  | [] => ([], true)
  | shard_id :: rest =>
    let output_filename :=
      _get_dataset_filename dataset_dir tfrecords_subdir split_name shard_id
    let (recs, ok) := processSlice img cids (shardSlice filenames shard_id)
    if ok then
      let (more, ok2) :=
        runShards img cids dataset_dir tfrecords_subdir split_name filenames rest
      ((output_filename, recs) :: more, ok2)
    else
      ([(output_filename, recs)], false)

/-- `_convert_dataset` (lines 104-148): the shard files created (with the
records each received) and whether the whole split converted without an
abort.  The `assert split_name in ['train', 'validation']` of line 116 holds
at both call sites and is not modelled further. -/
def _convert_dataset (img : String → List Nat) (cids : List (String × Nat))
    (split_name : String) (filenames : List String)
    (dataset_dir tfrecords_subdir : String) : List (String × List Record) × Bool :=
  runShards img cids dataset_dir tfrecords_subdir split_name filenames
    (List.range _NUM_SHARDS)

/-- `(l.set i b).set j a` when both indices are in range, else the list
unchanged: one step of `random.shuffle`'s `x[i], x[j] = x[j], x[i]`. -/
def listSwap {α : Type} (l : List α) (i j : Nat) : List α :=
  match l[i]?, l[j]? with
  | some a, some b => (l.set i b).set j a
  | _, _ => l

/-- The Fisher–Yates loop of `random.shuffle`:
`for i in reversed(range(1, len(x))): j = _randbelow(i+1); swap`.  The
recursion argument is the current swap position; `randbelow b` is the draw
with exclusive bound `b`, reduced mod `b` to record that guarantee. -/
def shuffleAux {α : Type} (randbelow : Nat → Nat) : Nat → List α → List α
  | 0, l => l
  | i + 1, l =>
    shuffleAux randbelow i (listSwap l (i + 1) (randbelow (i + 2) % (i + 2)))

/-- `random.seed(seed)` followed by `random.shuffle(l)` (lines 196-197): the
seeded PRNG is the deterministic draw stream `rng seed`. -/
def pythonShuffle {α : Type} (rng : Nat → Nat → Nat) (seed : Nat)
    (l : List α) : List α :=
  shuffleAux (rng seed) (l.length - 1) l

/-- Lines 196-199 of `convert_images`: seed with `_RANDOM_SEED`, shuffle,
then `training = photo_filenames[num_valid:]` and
`validation = photo_filenames[:num_valid]`.  Returns
`(training_filenames, validation_filenames)`. -/
def trainValidSplit (rng : Nat → Nat → Nat) (num_valid : Nat)
    (photo_filenames : List String) : List String × List String :=
  let shuffled := pythonShuffle rng _RANDOM_SEED photo_filenames
  (shuffled.drop num_valid, shuffled.take num_valid)

/-- Observable outcome of one `convert_images` run. -/
structure RunResult where
  /-- `tf.gfile.MakeDirs` was called on `dataset_dir/tfrecords_subdir`. -/
  created_dir : Bool
  /-- The run took the line-188 short-circuit and returned at line 190. -/
  early_exit : Bool
  /-- Shard files created, in creation order, each with its records. -/
  shard_files : List (String × List Record)
  /-- An assertion/`KeyError` aborted the conversion. -/
  aborted : Bool
  /-- `dataset_utils.write_label_file` was reached (line 209). -/
  label_file_written : Bool
  /-- The mapping handed to the label writer (line 208). -/
  labels : List (Nat × String)
deriving DecidableEq

/-- `convert_images` (lines 176-212).  Inputs beyond the Python arguments:
the filesystem `fs`, the photos-root listing, the decoded-shape oracle
`img`, and the PRNG stream `rng`. -/
def convert_images (fs : FileSet) (rootListing : List DirEntry)
    (img : String → List Nat) (rng : Nat → Nat → Nat)
    (dataset_dir : String) (num_valid : Nat)
    (photos_subdir tfrecords_subdir : String) : RunResult :=
  let created_dir := !(gfileExists fs (joinPath dataset_dir tfrecords_subdir))
  if _dataset_exists fs dataset_dir photos_subdir then
    { created_dir := created_dir, early_exit := true, shard_files := [],
      aborted := false, label_file_written := false, labels := [] }
  else
    let scan := _get_filenames_and_classes dataset_dir photos_subdir rootListing
    let photo_filenames := scan.1
    let class_names := scan.2
    let cids := class_names_to_ids class_names
    let divided := trainValidSplit rng num_valid photo_filenames
    let training_filenames := divided.1
    let validation_filenames := divided.2
    let train_result := _convert_dataset img cids "train" training_filenames
      dataset_dir tfrecords_subdir
    if train_result.2 then
      let valid_result := _convert_dataset img cids "validation"
        validation_filenames dataset_dir tfrecords_subdir
      if valid_result.2 then
        { created_dir := created_dir, early_exit := false,
          shard_files := train_result.1 ++ valid_result.1, aborted := false,
          label_file_written := true,
          labels := labels_to_class_names class_names }
      else
        { created_dir := created_dir, early_exit := false,
          shard_files := train_result.1 ++ valid_result.1, aborted := true,
          label_file_written := false, labels := [] }
    else
      { created_dir := created_dir, early_exit := false,
        shard_files := train_result.1, aborted := true,
        label_file_written := false, labels := [] }

/-- All records a run's shard files received, in the order written. -/
def totalRecords (shards : List (String × List Record)) : List Record :=
  (shards.map (fun p => p.2)).flatten

/-- The ten expected shard paths (both splits, shard ids 0..4) under
`dataset_dir/subdir`. -/
def expectedShardPaths (dataset_dir subdir : String) : List String :=
  ((["train", "validation"]).map (fun split_name =>
    (List.range _NUM_SHARDS).map (fun shard_id =>
      _get_dataset_filename dataset_dir subdir split_name shard_id))).flatten

end TumblrConvert

namespace TumblrConvert

lemma listSwap_length {α : Type} (l : List α) (i j : Nat) :
    (listSwap l i j).length = l.length := by
  unfold listSwap
  cases h1 : l[i]? <;> cases h2 : l[j]? <;> simp

lemma shuffleAux_length {α : Type} (rb : Nat → Nat) (i : Nat) (l : List α) :
    (shuffleAux rb i l).length = l.length := by
  induction i generalizing l with
  | zero => rfl
  | succ n ih => rw [shuffleAux, ih, listSwap_length]

lemma pythonShuffle_length {α : Type} (rng : Nat → Nat → Nat) (seed : Nat)
    (l : List α) : (pythonShuffle rng seed l).length = l.length :=
  shuffleAux_length ..

lemma count_set_aux {α : Type} [DecidableEq α] (l : List α) (i : Nat) (a : α)
    (h : i < l.length) (b : α) :
    (l.set i a).count b + (if l.get ⟨i, h⟩ = b then 1 else 0) =
      l.count b + (if a = b then 1 else 0) := by
  induction l generalizing i with
  | nil => simp at h
  | cons c t ih =>
    cases i with
    | zero => simp [List.count_cons]; split <;> split <;> simp
    | succ n =>
      simp only [List.set, List.count_cons, List.get]
      have := ih n (by simpa using h)
      omega

lemma listSwap_perm {α : Type} [DecidableEq α] (l : List α) (i j : Nat) :
    (listSwap l i j).Perm l := by
  cases h1 : l[i]? with
  | none =>
    have he : listSwap l i j = l := by unfold listSwap; rw [h1]
    rw [he]
  | some a =>
    cases h2 : l[j]? with
    | none =>
      have he : listSwap l i j = l := by unfold listSwap; rw [h1, h2]
      rw [he]
    | some b =>
      have he : listSwap l i j = (l.set i b).set j a := by
        unfold listSwap; rw [h1, h2]
      rw [he]
      obtain ⟨hi, hia⟩ := List.getElem?_eq_some.mp h1
      obtain ⟨hj, hjb⟩ := List.getElem?_eq_some.mp h2
      rw [List.perm_iff_count]
      intro x
      have hj2 : j < (l.set i b).length := by simpa using hj
      have e1 := count_set_aux (l.set i b) j a hj2 x
      have e2 := count_set_aux l i b hi x
      have hgj : (l.set i b).get ⟨j, hj2⟩ = b := by
        by_cases hij : i = j
        · subst hij
          simp [List.get_eq_getElem, List.getElem_set_self]
        · simp [List.get_eq_getElem, List.getElem_set_ne hij, hjb]
      have hgi : l.get ⟨i, hi⟩ = a := by simp [List.get_eq_getElem, hia]
      rw [hgj] at e1
      rw [hgi] at e2
      split_ifs at e1 e2 <;> omega

lemma shuffleAux_perm {α : Type} [DecidableEq α] (rb : Nat → Nat) (i : Nat)
    (l : List α) : (shuffleAux rb i l).Perm l := by
  induction i generalizing l with
  | zero => exact List.Perm.refl l
  | succ n ih =>
    exact (ih _).trans (listSwap_perm l (n + 1) (rb (n + 2) % (n + 2)))

lemma pythonShuffle_perm {α : Type} [DecidableEq α] (rng : Nat → Nat → Nat)
    (seed : Nat) (l : List α) : (pythonShuffle rng seed l).Perm l :=
  shuffleAux_perm ..


end TumblrConvert

namespace TumblrConvert

lemma num_per_shard_mul_ge (n : Nat) : n ≤ _NUM_SHARDS * num_per_shard n := by
  simp only [num_per_shard, _NUM_SHARDS]
  omega

lemma shardSlice_eq_drop_take (l : List String) (s : Nat) :
    shardSlice l s
      = (l.drop (s * num_per_shard l.length)).take (num_per_shard l.length) := by
  show (l.drop (s * num_per_shard l.length)).take
      (min ((s + 1) * num_per_shard l.length) l.length
        - s * num_per_shard l.length)
    = (l.drop (s * num_per_shard l.length)).take (num_per_shard l.length)
  have hsm : (s + 1) * num_per_shard l.length
      = s * num_per_shard l.length + num_per_shard l.length := Nat.succ_mul ..
  by_cases h : (s + 1) * num_per_shard l.length ≤ l.length
  · rw [min_eq_left h, hsm]
    congr 1
    omega
  · rw [min_eq_right (le_of_lt (lt_of_not_le h))]
    rw [List.take_of_length_le (by simp), List.take_of_length_le (by simp; omega)]

lemma flatten_drop_take (l : List String) (k : Nat) (m : Nat) :
    ((List.range m).map (fun s => (l.drop (s * k)).take k)).flatten
      = l.take (m * k) := by
  induction m with
  | zero => simp
  | succ m ih =>
    rw [List.range_succ, List.map_append, List.flatten_append, ih]
    simp only [List.map_cons, List.map_nil, List.flatten_cons, List.flatten_nil,
      List.append_nil]
    rw [Nat.succ_mul, List.take_add]

lemma shardSlices_flatten (l : List String) :
    ((List.range _NUM_SHARDS).map (shardSlice l)).flatten = l := by
  rw [List.map_congr_left (fun s _ => shardSlice_eq_drop_take l s),
    flatten_drop_take,
    List.take_of_length_le (by simpa [Nat.mul_comm] using num_per_shard_mul_ge l.length)]

lemma mem_of_mem_shardSlice (l : List String) (s : Nat) (f : String)
    (hf : f ∈ shardSlice l s) : f ∈ l := by
  unfold shardSlice at hf
  exact List.mem_of_mem_drop (List.mem_of_mem_take hf)

lemma length_filterMap_isSome {α β : Type} (f : α → Option β) (l : List α)
    (h : ∀ a ∈ l, (f a).isSome) : (l.filterMap f).length = l.length := by
  induction l with
  | nil => rfl
  | cons a t ih =>
    obtain ⟨b, hb⟩ := Option.isSome_iff_exists.mp (h a (by simp))
    simp [List.filterMap_cons, hb,
      ih (fun g hg => h g (List.mem_cons_of_mem a hg))]

lemma processSlice_all_some (img : String → List Nat)
    (cids : List (String × Nat)) (l : List String)
    (h : ∀ f ∈ l, (convertImage img cids f).isSome) :
    processSlice img cids l = (l.filterMap (convertImage img cids), true) := by
  induction l with
  | nil => rfl
  | cons f rest ih =>
    obtain ⟨r, hr⟩ := Option.isSome_iff_exists.mp (h f (by simp))
    simp [processSlice, hr, List.filterMap_cons,
      ih (fun g hg => h g (List.mem_cons_of_mem f hg))]

lemma runShards_success (img : String → List Nat) (cids : List (String × Nat))
    (dataset_dir tfrecords_subdir split_name : String)
    (filenames : List String) (ids : List Nat)
    (h : ∀ f ∈ filenames, (convertImage img cids f).isSome) :
    runShards img cids dataset_dir tfrecords_subdir split_name filenames ids
      = (ids.map (fun s =>
          (_get_dataset_filename dataset_dir tfrecords_subdir split_name s,
            (shardSlice filenames s).filterMap (convertImage img cids))),
         true) := by
  induction ids with
  | nil => rfl
  | cons s rest ih =>
    rw [runShards,
      processSlice_all_some img cids (shardSlice filenames s)
        (fun f hf => h f (mem_of_mem_shardSlice filenames s f hf))]
    simp [ih]

/-- C2: for every split's filename list, the five shard slices
`[shard_id*ceil(n/5), min((shard_id+1)*ceil(n/5), n))` are contiguous and
partition the list, so when every image converts, the records written across
the shards of the split sum to exactly the split's filename count. -/
theorem C2_shard_slices_partition (img : String → List Nat)
    (cids : List (String × Nat))
    (split_name dataset_dir tfrecords_subdir : String)
    (filenames : List String)
    (h : ∀ f ∈ filenames, (convertImage img cids f).isSome) :
    ((List.range _NUM_SHARDS).map (shardSlice filenames)).flatten = filenames ∧
    (((_convert_dataset img cids split_name filenames dataset_dir
        tfrecords_subdir).1).map (fun shard => shard.2.length)).sum
      = filenames.length := by
  refine ⟨shardSlices_flatten filenames, ?_⟩
  rw [_convert_dataset, runShards_success img cids dataset_dir tfrecords_subdir
    split_name filenames (List.range _NUM_SHARDS) h]
  simp only [List.map_map, Function.comp]
  calc ((List.range _NUM_SHARDS).map (fun s =>
          ((shardSlice filenames s).filterMap (convertImage img cids)).length)).sum
      = ((List.range _NUM_SHARDS).map (fun s => (shardSlice filenames s).length)).sum := by
        refine congrArg List.sum (List.map_congr_left (fun s _ => ?_))
        exact length_filterMap_isSome (convertImage img cids) (shardSlice filenames s)
          (fun f hf => h f (mem_of_mem_shardSlice filenames s f hf))
    _ = (((List.range _NUM_SHARDS).map (shardSlice filenames)).map List.length).sum := by
        rw [List.map_map]; rfl
    _ = ((List.range _NUM_SHARDS).map (shardSlice filenames)).flatten.length := by
        rw [List.length_flatten]
    _ = filenames.length := by rw [shardSlices_flatten]

/-- C2 witness: three filenames in one class, all convertible; the shard
record counts sum to 3. -/
theorem C2_shard_slices_partition_witness :
    (∀ f ∈ ["d/p/a.jpg", "d/p/b.jpg", "d/p/c.jpg"],
      (convertImage (fun _ => [2, 4, 3]) [("p", 0)] f).isSome) ∧
    (((List.range _NUM_SHARDS).map
        (shardSlice ["d/p/a.jpg", "d/p/b.jpg", "d/p/c.jpg"])).flatten
      = ["d/p/a.jpg", "d/p/b.jpg", "d/p/c.jpg"] ∧
    (((_convert_dataset (fun _ => [2, 4, 3]) [("p", 0)] "train"
        ["d/p/a.jpg", "d/p/b.jpg", "d/p/c.jpg"] "d" "tfrecords").1).map
        (fun shard => shard.2.length)).sum
      = (["d/p/a.jpg", "d/p/b.jpg", "d/p/c.jpg"] : List String).length) :=
  ⟨by decide,
   C2_shard_slices_partition (fun _ => [2, 4, 3]) [("p", 0)] "train" "d"
     "tfrecords" ["d/p/a.jpg", "d/p/b.jpg", "d/p/c.jpg"] (by decide)⟩

end TumblrConvert

namespace TumblrConvert

/-- C3: `convert_images` shuffles the scanned list with the fixed seed
`_RANDOM_SEED`; the validation split is exactly the first `num_valid`
shuffled filenames and the training split exactly the rest (the two splits
reassemble the shuffled list, which is a permutation of the input), with the
expected sizes whenever `num_valid` does not exceed the list length. -/
theorem C3_split_takes_first_num_valid (rng : Nat → Nat → Nat)
    (num_valid : Nat) (photo_filenames : List String)
    (h : num_valid ≤ photo_filenames.length) :
    (trainValidSplit rng num_valid photo_filenames).2
        = (pythonShuffle rng _RANDOM_SEED photo_filenames).take num_valid ∧
    (trainValidSplit rng num_valid photo_filenames).1
        = (pythonShuffle rng _RANDOM_SEED photo_filenames).drop num_valid ∧
    (trainValidSplit rng num_valid photo_filenames).2
        ++ (trainValidSplit rng num_valid photo_filenames).1
        = pythonShuffle rng _RANDOM_SEED photo_filenames ∧
    (pythonShuffle rng _RANDOM_SEED photo_filenames).Perm photo_filenames ∧
    (trainValidSplit rng num_valid photo_filenames).2.length = num_valid ∧
    (trainValidSplit rng num_valid photo_filenames).1.length
        = photo_filenames.length - num_valid := by
  refine ⟨rfl, rfl, List.take_append_drop .., pythonShuffle_perm .., ?_, ?_⟩
  · simp [trainValidSplit, pythonShuffle_length, h]
  · simp [trainValidSplit, pythonShuffle_length]

/-- C3 witness: four filenames, `num_valid = 3`, a concrete draw stream. -/
theorem C3_split_takes_first_num_valid_witness :
    (3 ≤ (["a", "b", "c", "d"] : List String).length) ∧
    ((trainValidSplit (fun _ b => b + 1) 3 ["a", "b", "c", "d"]).2
        = (pythonShuffle (fun _ b => b + 1) _RANDOM_SEED
            ["a", "b", "c", "d"]).take 3 ∧
    (trainValidSplit (fun _ b => b + 1) 3 ["a", "b", "c", "d"]).1
        = (pythonShuffle (fun _ b => b + 1) _RANDOM_SEED
            ["a", "b", "c", "d"]).drop 3 ∧
    (trainValidSplit (fun _ b => b + 1) 3 ["a", "b", "c", "d"]).2
        ++ (trainValidSplit (fun _ b => b + 1) 3 ["a", "b", "c", "d"]).1
        = pythonShuffle (fun _ b => b + 1) _RANDOM_SEED ["a", "b", "c", "d"] ∧
    (pythonShuffle (fun _ b => b + 1) _RANDOM_SEED
        ["a", "b", "c", "d"]).Perm ["a", "b", "c", "d"] ∧
    (trainValidSplit (fun _ b => b + 1) 3 ["a", "b", "c", "d"]).2.length = 3 ∧
    (trainValidSplit (fun _ b => b + 1) 3 ["a", "b", "c", "d"]).1.length
        = (["a", "b", "c", "d"] : List String).length - 3) :=
  ⟨by decide,
   C3_split_takes_first_num_valid (fun _ b => b + 1) 3 ["a", "b", "c", "d"]
     (by decide)⟩

/-- C6: the split step is a deterministic function of the draw stream and
the input filename list: two runs on the same input produce the same
train/validation partition, and that partition is the fixed-seed shuffle of
the input, split at `num_valid` — nothing else enters. -/
theorem C6_split_deterministic (rng : Nat → Nat → Nat) (num_valid : Nat)
    (first_run_input second_run_input : List String)
    (h : first_run_input = second_run_input) :
    trainValidSplit rng num_valid first_run_input
        = trainValidSplit rng num_valid second_run_input ∧
    trainValidSplit rng num_valid first_run_input
        = ((pythonShuffle rng _RANDOM_SEED first_run_input).drop num_valid,
           (pythonShuffle rng _RANDOM_SEED first_run_input).take num_valid) := by
  subst h
  exact ⟨rfl, rfl⟩

/-- C6 witness: two runs on the same concrete list coincide. -/
theorem C6_split_deterministic_witness :
    ((["x", "y", "z"] : List String) = ["x", "y", "z"]) ∧
    (trainValidSplit (fun _ b => b / 2) 1 ["x", "y", "z"]
        = trainValidSplit (fun _ b => b / 2) 1 ["x", "y", "z"] ∧
    trainValidSplit (fun _ b => b / 2) 1 ["x", "y", "z"]
        = ((pythonShuffle (fun _ b => b / 2) _RANDOM_SEED
              ["x", "y", "z"]).drop 1,
           (pythonShuffle (fun _ b => b / 2) _RANDOM_SEED
              ["x", "y", "z"]).take 1)) :=
  ⟨rfl, C6_split_deterministic (fun _ b => b / 2) 1 ["x", "y", "z"]
    ["x", "y", "z"] rfl⟩

/-- C9: when `num_valid` exceeds the number of scanned filenames, the slicing
raises no error: the validation split receives the whole shuffled list and
the training split is empty. -/
theorem C9_num_valid_exceeds_total (rng : Nat → Nat → Nat) (num_valid : Nat)
    (photo_filenames : List String)
    (h : photo_filenames.length < num_valid) :
    (trainValidSplit rng num_valid photo_filenames).1 = [] ∧
    (trainValidSplit rng num_valid photo_filenames).2
        = pythonShuffle rng _RANDOM_SEED photo_filenames := by
  constructor
  · simp only [trainValidSplit]
    rw [List.drop_eq_nil_iff.mpr (by rw [pythonShuffle_length]; omega)]
  · simp only [trainValidSplit]
    rw [List.take_of_length_le (by rw [pythonShuffle_length]; omega)]

/-- C9 witness: two filenames, `num_valid = 5`. -/
theorem C9_num_valid_exceeds_total_witness :
    ((["a", "b"] : List String).length < 5) ∧
    ((trainValidSplit (fun _ b => b + 2) 5 ["a", "b"]).1 = [] ∧
    (trainValidSplit (fun _ b => b + 2) 5 ["a", "b"]).2
        = pythonShuffle (fun _ b => b + 2) _RANDOM_SEED ["a", "b"]) :=
  ⟨by decide, C9_num_valid_exceeds_total (fun _ b => b + 2) 5 ["a", "b"]
    (by decide)⟩

end TumblrConvert

namespace TumblrConvert

/-- C10: on every run, `convert_images` creates the tfrecords output
subdirectory (when absent) before the existence check, so even a run that
short-circuits still makes that directory: under a complete photos-side
shard set and a missing output directory, the run exits early having
created the directory and written nothing else. -/
theorem C10_mkdirs_precedes_check (fs : FileSet) (rootListing : List DirEntry)
    (img : String → List Nat) (rng : Nat → Nat → Nat)
    (dataset_dir : String) (num_valid : Nat)
    (photos_subdir tfrecords_subdir : String)
    (hdir : gfileExists fs (joinPath dataset_dir tfrecords_subdir) = false)
    (hex : _dataset_exists fs dataset_dir photos_subdir = true) :
    convert_images fs rootListing img rng dataset_dir num_valid photos_subdir
        tfrecords_subdir
      = { created_dir := true, early_exit := true, shard_files := [],
          aborted := false, label_file_written := false, labels := [] } := by
  simp [convert_images, hex, hdir]

/-- C10 witness: the ten expected shard files sit under `d/photos`, the
directory `d/tfrecords` does not exist; the run short-circuits yet creates
the directory. -/
theorem C10_mkdirs_precedes_check_witness :
    (gfileExists (expectedShardPaths "d" "photos") (joinPath "d" "tfrecords")
        = false) ∧
    (_dataset_exists (expectedShardPaths "d" "photos") "d" "photos" = true) ∧
    (convert_images (expectedShardPaths "d" "photos") [] (fun _ => [1, 1, 3])
        (fun _ _ => 0) "d" 1 "photos" "tfrecords"
      = { created_dir := true, early_exit := true, shard_files := [],
          aborted := false, label_file_written := false, labels := [] }) :=
  ⟨by decide, by decide,
   C10_mkdirs_precedes_check (expectedShardPaths "d" "photos") []
     (fun _ => [1, 1, 3]) (fun _ _ => 0) "d" 1 "photos" "tfrecords"
     (by decide) (by decide)⟩

/-- C1: the claim fails on the code. With all ten expected shard files
present in the output location `data/tfrecords` (and not in `data/photos`),
`_dataset_exists` — which probes `photos_subdir`, not `tfrecords_subdir` —
returns false, so `convert_images` does not return early: it re-runs the
conversion, opening all ten shard files and writing the label file. -/
theorem C1_no_short_circuit_on_complete_outputs :
    _dataset_exists (expectedShardPaths "data" "tfrecords") "data" "tfrecords"
        = true ∧
    _dataset_exists (expectedShardPaths "data" "tfrecords") "data" "photos"
        = false ∧
    (convert_images (expectedShardPaths "data" "tfrecords")
        [⟨"happy", true, ["a.jpg"]⟩] (fun _ => [4, 4, 3]) (fun _ _ => 0)
        "data" 1 "photos" "tfrecords").early_exit = false ∧
    (convert_images (expectedShardPaths "data" "tfrecords")
        [⟨"happy", true, ["a.jpg"]⟩] (fun _ => [4, 4, 3]) (fun _ _ => 0)
        "data" 1 "photos" "tfrecords").shard_files.length = 10 ∧
    (convert_images (expectedShardPaths "data" "tfrecords")
        [⟨"happy", true, ["a.jpg"]⟩] (fun _ => [4, 4, 3]) (fun _ _ => 0)
        "data" 1 "photos" "tfrecords").label_file_written = true := by
  refine ⟨by decide, by decide, by decide, by decide, by decide⟩

/-- C8: a `.DS_Store` entry of a class directory is excluded from the
scanned filename list, and every other entry of every class directory is
included: the scanned list contains exactly the paths built from non-
`.DS_Store` entries of class directories. -/
theorem C8_ds_store_excluded (dataset_dir photos_subdir : String)
    (rootListing : List DirEntry) :
    (∀ d ∈ rootListing, d.isDir = true → ∀ f ∈ d.entries,
      f ≠ ".DS_Store" →
      joinPath (joinPath (joinPath dataset_dir photos_subdir) d.name) f
        ∈ (_get_filenames_and_classes dataset_dir photos_subdir rootListing).1) ∧
    (∀ p ∈ (_get_filenames_and_classes dataset_dir photos_subdir rootListing).1,
      ∃ d, d ∈ rootListing ∧ d.isDir = true ∧ ∃ f, f ∈ d.entries ∧
        f ≠ ".DS_Store" ∧
        p = joinPath (joinPath (joinPath dataset_dir photos_subdir) d.name) f) := by
  constructor
  · intro d hd hdir f hf hne
    simp only [_get_filenames_and_classes, List.mem_flatten, List.mem_map]
    refine ⟨((d.entries.filter (fun filename => filename ≠ ".DS_Store")).map
      (fun filename =>
        joinPath (joinPath (joinPath dataset_dir photos_subdir) d.name)
          filename)), ⟨d, ?_, rfl⟩, ?_⟩
    · exact List.mem_filter.mpr ⟨hd, by simp [hdir]⟩
    · exact List.mem_map.mpr ⟨f, List.mem_filter.mpr ⟨hf, by simp [hne]⟩, rfl⟩
  · intro p hp
    simp only [_get_filenames_and_classes, List.mem_flatten, List.mem_map]
      at hp
    obtain ⟨sub, ⟨d, hd, rfl⟩, hmem⟩ := hp
    obtain ⟨f, hf, rfl⟩ := List.mem_map.mp hmem
    obtain ⟨hfe, hne⟩ := List.mem_filter.mp hf
    exact ⟨d, (List.mem_filter.mp hd).1, by
      simpa using (List.mem_filter.mp hd).2, f, hfe, by simpa using hne, rfl⟩

/-- C8 witness: a class directory holding `.DS_Store` next to an image; the
image's path is scanned, and the whole scanned list avoids `.DS_Store`. -/
theorem C8_ds_store_excluded_witness :
    ("d/photos/happy/a.jpg"
      ∈ (_get_filenames_and_classes "d" "photos"
          [⟨"happy", true, ["a.jpg", ".DS_Store"]⟩]).1) :=
  (C8_ds_store_excluded "d" "photos"
      [⟨"happy", true, ["a.jpg", ".DS_Store"]⟩]).1
    ⟨"happy", true, ["a.jpg", ".DS_Store"]⟩ (by decide) (by decide)
    "a.jpg" (by decide) (by decide)

end TumblrConvert

namespace TumblrConvert

lemma lookup_zip_range_aux :
    ∀ (l : List String), l.Nodup → ∀ (s i : Nat) (h : i < l.length),
      (l.zip (List.range' s l.length)).lookup (l.get ⟨i, h⟩) = some (s + i) := by
  intro l
  induction l with
  | nil => intro _ _ i h; simp at h
  | cons a t ih =>
    intro hl s i h
    cases i with
    | zero => simp [List.lookup]
    | succ n =>
      have ha : a ∉ t := (List.nodup_cons.mp hl).1
      have hn : n < t.length := by simpa using h
      have hne : (t.get ⟨n, hn⟩) ≠ a := fun he => ha (he ▸ t.get_mem ..)
      show List.lookup (t.get ⟨n, hn⟩)
        ((a, s) :: t.zip (List.range' (s + 1) t.length)) = some (s + (n + 1))
      simp only [List.lookup, beq_eq_false_iff_ne.mpr hne]
      rw [show s + (n + 1) = (s + 1) + n by omega]
      exact ih (List.nodup_cons.mp hl).2 (s + 1) n hn

lemma class_ids_lookup (l : List String) (hl : l.Nodup) (i : Nat)
    (h : i < l.length) :
    (class_names_to_ids l).lookup (l.get ⟨i, h⟩) = some i := by
  have := lookup_zip_range_aux l hl 0 i h
  simpa [class_names_to_ids, List.range_eq_range'] using this

lemma lookup_range_zip_aux :
    ∀ (l : List String) (s i : Nat) (h : i < l.length),
      ((List.range' s l.length).zip l).lookup (s + i) = some (l.get ⟨i, h⟩) := by
  intro l
  induction l with
  | nil => intro s i h; simp at h
  | cons a t ih =>
    intro s i h
    cases i with
    | zero => simp [List.lookup]
    | succ n =>
      have hn : n < t.length := by simpa using h
      have hne : s + (n + 1) ≠ s := by omega
      show List.lookup (s + (n + 1))
        ((s, a) :: (List.range' (s + 1) t.length).zip t)
        = some (t.get ⟨n, hn⟩)
      simp only [List.lookup, beq_eq_false_iff_ne.mpr hne]
      rw [show s + (n + 1) = (s + 1) + n by omega]
      exact ih (s + 1) n hn

lemma labels_lookup (l : List String) (i : Nat) (h : i < l.length) :
    (labels_to_class_names l).lookup i = some (l.get ⟨i, h⟩) := by
  have := lookup_range_zip_aux l 0 i h
  simpa [labels_to_class_names, List.range_eq_range'] using this

lemma labels_keys (l : List String) :
    (labels_to_class_names l).map Prod.fst = List.range l.length := by
  apply List.map_fst_zip
  simp

lemma scanner_class_names_nodup (dataset_dir photos_subdir : String)
    (rootListing : List DirEntry)
    (h : (rootListing.map DirEntry.name).Nodup) :
    ((_get_filenames_and_classes dataset_dir photos_subdir rootListing).2).Nodup := by
  have hsub : ((rootListing.filter (fun e => e.isDir)).map DirEntry.name).Sublist
      (rootListing.map DirEntry.name) :=
    (List.filter_sublist rootListing).map DirEntry.name
  have h2 : ((rootListing.filter (fun e => e.isDir)).map DirEntry.name).Nodup :=
    h.sublist hsub
  have hperm := List.perm_insertionSort (fun a b => strLe a b = true)
    ((rootListing.filter (fun e => e.isDir)).map (fun e => e.name))
  exact (hperm.nodup_iff).mpr h2

/-- C4: class ids are the zero-based indices into the sorted class-name
list, and the label mapping written at the end is a bijection: its ids are
exactly `0..num_classes-1`, id `i` maps to the `i`-th sorted class name, and
distinct ids carry distinct names. -/
theorem C4_label_map_bijection (dataset_dir photos_subdir : String)
    (rootListing : List DirEntry) (class_names : List String)
    (hnd : (rootListing.map DirEntry.name).Nodup)
    (hcn : class_names
      = (_get_filenames_and_classes dataset_dir photos_subdir rootListing).2) :
    (∀ i (h : i < class_names.length),
      (class_names_to_ids class_names).lookup (class_names.get ⟨i, h⟩)
        = some i) ∧
    (labels_to_class_names class_names).map Prod.fst
        = List.range class_names.length ∧
    (∀ i (h : i < class_names.length),
      (labels_to_class_names class_names).lookup i
        = some (class_names.get ⟨i, h⟩)) ∧
    (∀ i j (hi : i < class_names.length) (hj : j < class_names.length),
      class_names.get ⟨i, hi⟩ = class_names.get ⟨j, hj⟩ → i = j) := by
  have hnodup : class_names.Nodup := by
    rw [hcn]
    exact scanner_class_names_nodup dataset_dir photos_subdir rootListing hnd
  refine ⟨fun i h => class_ids_lookup class_names hnodup i h,
    labels_keys class_names,
    fun i h => labels_lookup class_names i h,
    fun i j hi hj hee => ?_⟩
  have := (List.Nodup.get_inj_iff hnodup).mp hee
  exact congrArg Fin.val this

/-- C4 witness: two class directories; sorted names are `happy < sad`, ids
0 and 1, label map `{0: happy, 1: sad}`. -/
theorem C4_label_map_bijection_witness :
    ((([⟨"happy", true, ["a.jpg"]⟩, ⟨"sad", true, ["b.jpg"]⟩] :
        List DirEntry).map DirEntry.name).Nodup ∧
     (["happy", "sad"] : List String)
       = (_get_filenames_and_classes "d" "photos"
           [⟨"happy", true, ["a.jpg"]⟩, ⟨"sad", true, ["b.jpg"]⟩]).2) ∧
    ((∀ i (h : i < (["happy", "sad"] : List String).length),
      (class_names_to_ids ["happy", "sad"]).lookup
          ((["happy", "sad"] : List String).get ⟨i, h⟩) = some i) ∧
    (labels_to_class_names ["happy", "sad"]).map Prod.fst
        = List.range (["happy", "sad"] : List String).length ∧
    (∀ i (h : i < (["happy", "sad"] : List String).length),
      (labels_to_class_names ["happy", "sad"]).lookup i
        = some ((["happy", "sad"] : List String).get ⟨i, h⟩)) ∧
    (∀ i j (hi : i < (["happy", "sad"] : List String).length)
        (hj : j < (["happy", "sad"] : List String).length),
      (["happy", "sad"] : List String).get ⟨i, hi⟩
          = (["happy", "sad"] : List String).get ⟨j, hj⟩ → i = j)) :=
  ⟨⟨by decide, by decide⟩,
   C4_label_map_bijection "d" "photos"
     [⟨"happy", true, ["a.jpg"]⟩, ⟨"sad", true, ["b.jpg"]⟩]
     ["happy", "sad"] (by decide) (by decide)⟩

end TumblrConvert

namespace TumblrConvert

lemma mem_of_mem_training (rng : Nat → Nat → Nat) (num_valid : Nat)
    (l : List String) (f : String)
    (hf : f ∈ (trainValidSplit rng num_valid l).1) : f ∈ l :=
  (pythonShuffle_perm rng _RANDOM_SEED l).mem_iff.mp (List.mem_of_mem_drop hf)

lemma mem_of_mem_validation (rng : Nat → Nat → Nat) (num_valid : Nat)
    (l : List String) (f : String)
    (hf : f ∈ (trainValidSplit rng num_valid l).2) : f ∈ l :=
  (pythonShuffle_perm rng _RANDOM_SEED l).mem_iff.mp (List.mem_of_mem_take hf)

/-- C7: when the run converts (no early exit, every image decodable and
classed), each split gets exactly `_NUM_SHARDS = 5` shard files — however
many or few images it holds — named
`tumblr_<split>_<shard:05d>-of-<total:05d>.tfrecord` and placed under the
tfrecords output subdirectory of the dataset directory. -/
theorem C7_five_shards_per_split (fs : FileSet) (rootListing : List DirEntry)
    (img : String → List Nat) (rng : Nat → Nat → Nat) (dataset_dir : String)
    (num_valid : Nat) (photos_subdir tfrecords_subdir : String)
    (hne : _dataset_exists fs dataset_dir photos_subdir = false)
    (hok : ∀ f ∈ (_get_filenames_and_classes dataset_dir photos_subdir
        rootListing).1,
      (convertImage img (class_names_to_ids
        (_get_filenames_and_classes dataset_dir photos_subdir
          rootListing).2) f).isSome) :
    (convert_images fs rootListing img rng dataset_dir num_valid
        photos_subdir tfrecords_subdir).shard_files.length = 2 * _NUM_SHARDS ∧
    (convert_images fs rootListing img rng dataset_dir num_valid
        photos_subdir tfrecords_subdir).shard_files.map Prod.fst
      = (List.range _NUM_SHARDS).map (fun shard_id =>
          joinPath dataset_dir (joinPath tfrecords_subdir
            ("tumblr_train_" ++ pad5 shard_id ++ "-of-"
              ++ pad5 _NUM_SHARDS ++ ".tfrecord")))
        ++ (List.range _NUM_SHARDS).map (fun shard_id =>
          joinPath dataset_dir (joinPath tfrecords_subdir
            ("tumblr_validation_" ++ pad5 shard_id ++ "-of-"
              ++ pad5 _NUM_SHARDS ++ ".tfrecord"))) := by
  have hok1 : ∀ f ∈ (trainValidSplit rng num_valid
      (_get_filenames_and_classes dataset_dir photos_subdir rootListing).1).1,
      (convertImage img (class_names_to_ids
        (_get_filenames_and_classes dataset_dir photos_subdir
          rootListing).2) f).isSome :=
    fun f hf => hok f (mem_of_mem_training rng num_valid _ f hf)
  have hok2 : ∀ f ∈ (trainValidSplit rng num_valid
      (_get_filenames_and_classes dataset_dir photos_subdir rootListing).1).2,
      (convertImage img (class_names_to_ids
        (_get_filenames_and_classes dataset_dir photos_subdir
          rootListing).2) f).isSome :=
    fun f hf => hok f (mem_of_mem_validation rng num_valid _ f hf)
  simp only [convert_images, hne, Bool.false_eq_true, if_false,
    _convert_dataset, runShards_success _ _ _ _ _ _ _ hok1,
    runShards_success _ _ _ _ _ _ _ hok2, if_true, List.map_append,
    List.map_map, List.length_append, List.length_map, List.length_range]
  constructor
  · omega
  · rfl

/-- C7 witness: one class with one image, `num_valid = 0`; the training
split holds the image, the validation split is empty, and both splits still
get five shard files with the expected names. -/
theorem C7_five_shards_per_split_witness :
    (_dataset_exists [] "d" "photos" = false ∧
     (∀ f ∈ (_get_filenames_and_classes "d" "photos"
         [⟨"happy", true, ["a.jpg"]⟩]).1,
       (convertImage (fun _ => [8, 6, 3]) (class_names_to_ids
         (_get_filenames_and_classes "d" "photos"
           [⟨"happy", true, ["a.jpg"]⟩]).2) f).isSome)) ∧
    ((convert_images [] [⟨"happy", true, ["a.jpg"]⟩] (fun _ => [8, 6, 3])
        (fun _ _ => 0) "d" 0 "photos" "tfrecords").shard_files.length
      = 2 * _NUM_SHARDS ∧
    (convert_images [] [⟨"happy", true, ["a.jpg"]⟩] (fun _ => [8, 6, 3])
        (fun _ _ => 0) "d" 0 "photos" "tfrecords").shard_files.map Prod.fst
      = (List.range _NUM_SHARDS).map (fun shard_id =>
          joinPath "d" (joinPath "tfrecords"
            ("tumblr_train_" ++ pad5 shard_id ++ "-of-"
              ++ pad5 _NUM_SHARDS ++ ".tfrecord")))
        ++ (List.range _NUM_SHARDS).map (fun shard_id =>
          joinPath "d" (joinPath "tfrecords"
            ("tumblr_validation_" ++ pad5 shard_id ++ "-of-"
              ++ pad5 _NUM_SHARDS ++ ".tfrecord")))) :=
  ⟨⟨by decide, by decide⟩,
   C7_five_shards_per_split [] [⟨"happy", true, ["a.jpg"]⟩]
     (fun _ => [8, 6, 3]) (fun _ _ => 0) "d" 0 "photos" "tfrecords"
     (by decide) (by decide)⟩

end TumblrConvert

namespace TumblrConvert

lemma processSlice_fail (img : String → List Nat) (cids : List (String × Nat))
    (pre : List String) (f : String) (post : List String)
    (hpre : ∀ g ∈ pre, (convertImage img cids g).isSome)
    (hf : convertImage img cids f = none) :
    processSlice img cids (pre ++ f :: post)
      = (pre.filterMap (convertImage img cids), false) := by
  induction pre with
  | nil => simp [processSlice, hf]
  | cons a t ih =>
    obtain ⟨r, hr⟩ := Option.isSome_iff_exists.mp (hpre a (by simp))
    simp [processSlice, hr, List.filterMap_cons,
      ih (fun g hg => hpre g (List.mem_cons_of_mem a hg))]

lemma runShards_abort (img : String → List Nat) (cids : List (String × Nat))
    (dataset_dir tfrecords_subdir split_name : String)
    (filenames : List String) (ids1 : List Nat) (s : Nat) (ids2 : List Nat)
    (h1 : ∀ t ∈ ids1, ∀ g ∈ shardSlice filenames t,
      (convertImage img cids g).isSome)
    (pre : List String) (f : String) (post : List String)
    (hs : shardSlice filenames s = pre ++ f :: post)
    (hpre : ∀ g ∈ pre, (convertImage img cids g).isSome)
    (hf : convertImage img cids f = none) :
    runShards img cids dataset_dir tfrecords_subdir split_name filenames
        (ids1 ++ s :: ids2)
      = (ids1.map (fun t =>
            (_get_dataset_filename dataset_dir tfrecords_subdir split_name t,
              (shardSlice filenames t).filterMap (convertImage img cids)))
          ++ [(_get_dataset_filename dataset_dir tfrecords_subdir split_name s,
               pre.filterMap (convertImage img cids))], false) := by
  induction ids1 with
  | nil =>
    rw [List.nil_append, runShards, hs,
      processSlice_fail img cids pre f post hpre hf]
    simp
  | cons t rest ih =>
    rw [List.cons_append, runShards,
      processSlice_all_some img cids (shardSlice filenames t)
        (h1 t (by simp))]
    simp only []
    rw [ih (fun u hu g hg => h1 u (by simp [hu]) g hg)]
    simp

lemma range_split (m s : Nat) (h : s < m) :
    List.range m = List.range s ++ s :: List.range' (s + 1) (m - s - 1) := by
  have hm : m = s + ((m - s - 1) + 1) := by omega
  have happ := List.range'_append 0 s ((m - s - 1) + 1) 1
  rw [Nat.add_comm ((m - s - 1) + 1) s] at happ
  rw [List.range_eq_range']
  conv =>
    lhs
    rw [hm, ← happ]
  simp [List.range'_succ, List.range_eq_range']

lemma shardSlice_decomp (l : List String) (i : Nat) (hi : i < l.length)
    (hk0 : 0 < num_per_shard l.length) :
    shardSlice l (i / num_per_shard l.length)
      = ((l.drop ((i / num_per_shard l.length) * num_per_shard l.length)).take
          (i % num_per_shard l.length))
        ++ l.get ⟨i, hi⟩
          :: ((l.drop (i + 1)).take
            (num_per_shard l.length - i % num_per_shard l.length - 1)) := by
  set k := num_per_shard l.length with hk
  set s := i / k with hsdef
  set p := i % k with hpdef
  have hsp : s * k + p = i := by
    rw [hsdef, hpdef, Nat.mul_comm]
    exact Nat.div_add_mod i k
  have hplt : p < k := Nat.mod_lt i hk0
  rw [shardSlice_eq_drop_take, ← hk]
  nth_rewrite 1 [show k = p + (k - p) by omega]
  rw [List.take_add]
  congr 1
  have hdd : (l.drop (s * k)).drop p = l.drop i := by
    rw [List.drop_drop]
    congr 1
  rw [hdd, List.drop_eq_getElem_cons hi]
  nth_rewrite 1 [show k - p = (k - p - 1) + 1 by omega]
  rw [List.take_succ_cons]
  rfl

/-- C5: an image whose decoded tensor is not 3-dimensional with 3 channels
fails `decode_jpeg`'s assertion, and the run aborts on the spot: the split's
output holds exactly the records of the images before it (none of that
shard's remaining records, no later shard, no skip-and-continue). -/
theorem C5_bad_image_aborts_run (img : String → List Nat)
    (cids : List (String × Nat))
    (split_name dataset_dir tfrecords_subdir : String)
    (filenames : List String) (i : Nat) (hi : i < filenames.length)
    (hshape : (img (filenames.get ⟨i, hi⟩)).length ≠ 3
      ∨ (img (filenames.get ⟨i, hi⟩)).getD 2 0 ≠ 3)
    (hok : ∀ j (hj : j < i),
      (convertImage img cids (filenames.get ⟨j, lt_trans hj hi⟩)).isSome) :
    decode_jpeg (img (filenames.get ⟨i, hi⟩)) = none ∧
    (_convert_dataset img cids split_name filenames dataset_dir
        tfrecords_subdir).2 = false ∧
    totalRecords (_convert_dataset img cids split_name filenames dataset_dir
        tfrecords_subdir).1
      = (filenames.take i).filterMap (convertImage img cids) := by
  have hdec : decode_jpeg (img (filenames.get ⟨i, hi⟩)) = none := by
    unfold decode_jpeg
    rcases hshape with h | h
    · rw [if_neg h]
    · by_cases h3 : (img (filenames.get ⟨i, hi⟩)).length = 3
      · rw [if_pos h3, if_neg h]
      · rw [if_neg h3]
  have hconvf : convertImage img cids (filenames.get ⟨i, hi⟩) = none := by
    unfold convertImage read_image_dims
    rw [hdec]
    rfl
  set n := filenames.length with hn
  set k := num_per_shard n with hk
  have hk0 : 0 < k := by
    rw [hk]
    simp only [num_per_shard, _NUM_SHARDS]
    omega
  set s := i / k with hsdef
  set p := i % k with hpdef
  have hsp : s * k + p = i := by
    rw [hsdef, hpdef, Nat.mul_comm]
    exact Nat.div_add_mod i k
  have hplt : p < k := Nat.mod_lt i hk0
  have hublk : n ≤ _NUM_SHARDS * k := hk ▸ num_per_shard_mul_ge n
  have hslt : s < _NUM_SHARDS := by
    rw [hsdef]
    exact (Nat.div_lt_iff_lt_mul hk0).mpr (by omega)
  -- every index strictly below i converts
  have hokidx : ∀ j (hj : j < n), j < i →
      (convertImage img cids (filenames.get ⟨j, hj⟩)).isSome := by
    intro j hj hji
    exact hok j hji
  -- shards before shard s convert entirely
  have h1 : ∀ t ∈ List.range s, ∀ g ∈ shardSlice filenames t,
      (convertImage img cids g).isSome := by
    intro t ht g hg
    have hts : t < s := List.mem_range.mp ht
    rw [shardSlice_eq_drop_take] at hg
    obtain ⟨u, hu, hgu⟩ := List.mem_iff_getElem.mp hg
    have hu2 : u < k := lt_of_lt_of_le hu (by simp)
    have hidx : t * k + u < n := by
      have h3 : u < (filenames.drop (t * k)).length := by
        have := hu
        simp only [List.length_take, lt_min_iff] at this
        exact this.2
      simp at h3
      omega
    have hlt : t * k + u < i := by
      have h4 : (t + 1) * k ≤ s * k := Nat.mul_le_mul_right k hts
      have h5 : (t + 1) * k = t * k + k := Nat.succ_mul ..
      omega
    have hgu2 : g = filenames.get ⟨t * k + u, hidx⟩ := by
      rw [← hgu]
      rw [List.getElem_take, List.getElem_drop]
      rfl
    rw [hgu2]
    exact hokidx (t * k + u) hidx hlt
  -- the failing shard's prefix converts
  have hpre : ∀ g ∈ (filenames.drop (s * k)).take p,
      (convertImage img cids g).isSome := by
    intro g hg
    obtain ⟨u, hu, hgu⟩ := List.mem_iff_getElem.mp hg
    have hup : u < p := lt_of_lt_of_le hu (by simp)
    have hidx : s * k + u < n := by omega
    have hgu2 : g = filenames.get ⟨s * k + u, hidx⟩ := by
      rw [← hgu]
      rw [List.getElem_take, List.getElem_drop]
      rfl
    rw [hgu2]
    exact hokidx (s * k + u) hidx (by omega)
  have hdecomp := shardSlice_decomp filenames i hi (hk ▸ hk0)
  rw [← hk, ← hsdef, ← hpdef] at hdecomp
  have habort := runShards_abort img cids dataset_dir tfrecords_subdir
    split_name filenames (List.range s) s
    (List.range' (s + 1) (_NUM_SHARDS - s - 1)) h1
    ((filenames.drop (s * k)).take p) (filenames.get ⟨i, hi⟩)
    ((filenames.drop (i + 1)).take (k - p - 1)) hdecomp hpre hconvf
  have hconv : _convert_dataset img cids split_name filenames dataset_dir
      tfrecords_subdir
      = ((List.range s).map (fun t =>
            (_get_dataset_filename dataset_dir tfrecords_subdir split_name t,
              (shardSlice filenames t).filterMap (convertImage img cids)))
          ++ [(_get_dataset_filename dataset_dir tfrecords_subdir split_name s,
               ((filenames.drop (s * k)).take p).filterMap
                 (convertImage img cids))], false) := by
    rw [_convert_dataset, range_split _NUM_SHARDS s hslt]
    exact habort
  refine ⟨hdec, by rw [hconv], ?_⟩
  rw [hconv]
  unfold totalRecords
  simp only [List.map_append, List.map_map, List.map_cons, List.map_nil,
    List.flatten_append, List.flatten_cons, List.flatten_nil,
    List.append_nil, Function.comp_def]
  have hflat : (((List.range s).map (shardSlice filenames)).map
      (List.filterMap (convertImage img cids))).flatten
      = (filenames.take (s * k)).filterMap (convertImage img cids) := by
    rw [← List.filterMap_flatten]
    congr 1
    rw [List.map_congr_left (fun t _ => shardSlice_eq_drop_take filenames t),
      ← hk, flatten_drop_take]
  rw [show ((List.range s).map fun t =>
      List.filterMap (convertImage img cids) (shardSlice filenames t))
      = ((List.range s).map (shardSlice filenames)).map
        (List.filterMap (convertImage img cids)) by rw [List.map_map]; rfl]
  rw [hflat, ← List.filterMap_append]
  congr 1
  rw [← List.take_add]
  rw [hsp]

/-- C5 witness: two images in one shard slice; the second decodes to a
2-channel tensor, so the run aborts with exactly the first image's record
written. -/
theorem C5_bad_image_aborts_run_witness :
    ((((fun f => if f = "d/p/b.jpg" then [2, 2, 2] else [2, 2, 3]) :
          String → List Nat) ("d/p/b.jpg")).length ≠ 3
        ∨ (((fun f => if f = "d/p/b.jpg" then [2, 2, 2] else [2, 2, 3]) :
          String → List Nat) ("d/p/b.jpg")).getD 2 0 ≠ 3) ∧
    (decode_jpeg (((fun f => if f = "d/p/b.jpg" then [2, 2, 2] else [2, 2, 3]) :
          String → List Nat) ("d/p/b.jpg")) = none ∧
    (_convert_dataset
        (fun f => if f = "d/p/b.jpg" then [2, 2, 2] else [2, 2, 3])
        [("p", 0)] "train" ["d/p/a.jpg", "d/p/b.jpg", "d/p/c.jpg"]
        "d" "tfrecords").2 = false ∧
    totalRecords (_convert_dataset
        (fun f => if f = "d/p/b.jpg" then [2, 2, 2] else [2, 2, 3])
        [("p", 0)] "train" ["d/p/a.jpg", "d/p/b.jpg", "d/p/c.jpg"]
        "d" "tfrecords").1
      = ((["d/p/a.jpg", "d/p/b.jpg", "d/p/c.jpg"] : List String).take 1).filterMap
          (convertImage
            (fun f => if f = "d/p/b.jpg" then [2, 2, 2] else [2, 2, 3])
            [("p", 0)])) := by
  have h := C5_bad_image_aborts_run
    (fun f => if f = "d/p/b.jpg" then [2, 2, 2] else [2, 2, 3])
    [("p", 0)] "train" "d" "tfrecords"
    ["d/p/a.jpg", "d/p/b.jpg", "d/p/c.jpg"] 1 (by decide)
    (by decide) (by decide)
  exact ⟨by decide, h⟩

end TumblrConvert
